import Mathlib

/-!
Verification of the time-conversion and identifier-normalization core of
`qiskit-ibm-runtime` (files `utils/converters.py` and
`api/rest/utils/data_mapper.py`), via a shallow embedding in Lean 4.

Modelling conventions:
* Python floats are modelled as exact rationals (`ℚ`); at every concrete
  input used below the double-precision computation and the rational
  computation agree.
* A Python `datetime` is modelled by its wall-clock reading (an integer
  number of time units) together with its optional UTC offset
  (`none` = naive).  The local timezone `tz.tzlocal()` is modelled as a
  fixed offset `localOff`, a parameter of each function.
* `dateutil.parser.parse` is third-party code outside the repository; it is
  abstracted as a function parameter returning `Except` (error = the
  `ParserError` message).
* Python strings are modelled as lists of Unicode code points (`List ℕ`)
  in the identifier-normalization part; the character classes follow the
  ASCII semantics that `re.ASCII` imposes on the source regexes.
-/

/-! ## `utils/converters.py`: `seconds_to_duration` -/

/-- Embedding of `seconds_to_duration` (converters.py:88-108).
`days = int(seconds // (3600*24))`, `hours = int((seconds // 3600) % 24)`,
`minutes = int((seconds // 60) % 60)`, `seconds %= 60`; if the remainder is
`< 1` the milliseconds are `ceil(rem * 1000)` and the seconds field is `0`,
otherwise the (possibly fractional) remainder is returned as the seconds
field and the milliseconds are `0`.  Python `//` on floats is `⌊·⌋`, and
`%` with a positive divisor returns the value in `[0, divisor)`. -/
def seconds_to_duration (s : ℚ) : ℤ × ℤ × ℤ × ℚ × ℤ :=
  let days : ℤ := ⌊s / (3600 * 24)⌋
  let hours : ℤ := ⌊s / 3600⌋ % 24
  let minutes : ℤ := ⌊s / 60⌋ % 60
  let rem : ℚ := s - 60 * (⌊s / 60⌋ : ℚ)
  if rem < 1 then (days, hours, minutes, 0, ⌈rem * 1000⌉)
  else (days, hours, minutes, rem, 0)

/-! ## `utils/converters.py`: datetime model, `utc_to_local`, `local_to_utc` -/

/-- Model of a Python `datetime`: wall-clock reading plus optional UTC
offset (`none` models a naive datetime, i.e. `utcoffset() is None`). -/
structure PyDatetime where
  wall : ℤ
  tzoff : Option ℤ
deriving DecidableEq

/-- Model of `datetime.replace(tzinfo=...)`: the wall-clock reading is kept,
only the attached timezone changes. -/
def replaceTz (d : PyDatetime) (o : Option ℤ) : PyDatetime :=
  ⟨d.wall, o⟩

/-- Model of `datetime.astimezone(target)` for a target timezone of fixed
offset `target`: the denoted instant (`wall - offset`) is preserved and the
wall clock is re-expressed in the target zone.  A naive datetime is
interpreted in the local zone (offset `localOff`), as Python does. -/
def astimezone (d : PyDatetime) (target localOff : ℤ) : PyDatetime :=
  match d.tzoff with
  | some o => ⟨d.wall - o + target, some target⟩
  | none => ⟨d.wall - localOff + target, some target⟩

/-- Model of `datetime.utcoffset()`. -/
def utcoffset (d : PyDatetime) : Option ℤ :=
  d.tzoff

/-- The UTC instant an aware datetime denotes (`none` for naive input). -/
def instantOf (d : PyDatetime) : Option ℤ :=
  d.tzoff.map (fun o => d.wall - o)

/-- Embedding of the datetime core of `utc_to_local` (converters.py:23-40):
`utc_dt.replace(tzinfo=timezone.utc).astimezone(tz.tzlocal())`, with the
local zone modelled as the fixed offset `localOff`. -/
def utc_to_local (localOff : ℤ) (d : PyDatetime) : PyDatetime :=
  astimezone (replaceTz d (some 0)) localOff localOff

/-- Embedding of the datetime core of `local_to_utc` (converters.py:43-64):
if `local_dt.utcoffset() is None or local_dt.utcoffset() != timedelta(0)`
the value is re-attached to the local zone and converted to UTC, otherwise
it is returned unchanged. -/
def local_to_utc (localOff : ℤ) (d : PyDatetime) : PyDatetime :=
  if utcoffset d = none ∨ utcoffset d ≠ some 0 then
    astimezone (replaceTz d (some localOff)) 0 localOff
  else d

/-! ## Error behaviour of the conversion functions -/

/-- The exception kinds reachable from the conversion functions:
`TypeError` (raised explicitly), `dateutil`'s `ParserError` (propagated
uncaught by `utc_to_local` / `local_to_utc`), and `IBMInputValueError`
(raised by `hms_to_seconds`). -/
inductive PyError where
  | typeError (msg : String)
  | parseError (msg : String)
  | ibmInputValueError (msg : String)
deriving DecidableEq

/-- The dynamic argument of `utc_to_local` / `local_to_utc`: a `datetime`,
a string, or a value of any other type. -/
inductive DtInput where
  | dt (d : PyDatetime)
  | str (s : String)
  | other
deriving DecidableEq

/-- Embedding of `utc_to_local` (converters.py:23-40) with its dynamic
type checks: a string is parsed first (an unparseable string raises
`ParserError`, uncaught), a non-string non-datetime raises `TypeError`. -/
def utc_to_local_dyn (parseFn : String → Except String PyDatetime)
    (localOff : ℤ) : DtInput → Except PyError PyDatetime
  | DtInput.str s =>
    match parseFn s with
    | Except.ok d => Except.ok (utc_to_local localOff d)
    | Except.error e => Except.error (PyError.parseError e)
  | DtInput.dt d => Except.ok (utc_to_local localOff d)
  | DtInput.other =>
    Except.error (PyError.typeError "Input `utc_dt` is not string or datetime.")

/-- Embedding of `local_to_utc` (converters.py:43-64) with its dynamic
type checks, exactly as `utc_to_local_dyn`. -/
def local_to_utc_dyn (parseFn : String → Except String PyDatetime)
    (localOff : ℤ) : DtInput → Except PyError PyDatetime
  | DtInput.str s =>
    match parseFn s with
    | Except.ok d => Except.ok (local_to_utc localOff d)
    | Except.error e => Except.error (PyError.parseError e)
  | DtInput.dt d => Except.ok (local_to_utc localOff d)
  | DtInput.other =>
    Except.error (PyError.typeError "Input `local_dt` is not string or datetime.")

/-- `true` iff the result is an `IBMInputValueError`. -/
def isIBMError {α : Type} : Except PyError α → Bool
  | Except.error (PyError.ibmInputValueError _) => true
  | _ => false

/-! ## `utils/converters.py`: `hms_to_seconds` -/

/-- The time-of-day fields of a parsed `datetime`; the bounds are the
invariants Python's `datetime` guarantees (`0 ≤ hour ≤ 23`, etc.). -/
structure TimeOfDay where
  hour : ℕ
  minute : ℕ
  second : ℕ
  hour_lt : hour < 24
  minute_lt : minute < 60
  second_lt : second < 60

/-- Embedding of `hms_to_seconds` (converters.py:139-159): parse the
string, sum `hours*3600 + minutes*60 + seconds` (that is exactly
`int(timedelta(hours, minutes, seconds).total_seconds())`); a
`ParserError` is caught and re-raised as `IBMInputValueError` with the
caller's prefix prepended. -/
def hms_to_seconds (parseFn : String → Except String TimeOfDay)
    (hms pfx : String) : Except PyError ℤ :=
  match parseFn hms with
  | Except.ok t =>
    Except.ok ((t.hour : ℤ) * 3600 + (t.minute : ℤ) * 60 + (t.second : ℤ))
  | Except.error e => Except.error (PyError.ibmInputValueError (pfx ++ e))

/-! ## `utils/converters.py`: `duration_difference` formatting -/

/-- Rendering of an integer into an f-string. -/
def fmtInt (n : ℤ) : String := toString n

/-- Rendering of the (possibly fractional) seconds field into an f-string. -/
def fmtRat (q : ℚ) : String := toString q

/-- Embedding of the formatting cascade of `duration_difference`
(converters.py:111-136), applied to the tuple `seconds_to_duration`
returned.  Each `if time_tuple[i]:` is Python truthiness, i.e. `≠ 0`;
the string is built exactly as the two `+=` of each branch build it. -/
def duration_format : ℤ × ℤ × ℤ × ℚ × ℤ → String
  | (d, h, m, s, _ms) =>
    if d ≠ 0 then (fmtInt d ++ " days") ++ (" " ++ (fmtInt h ++ " hrs"))
    else if h ≠ 0 then (fmtInt h ++ " hrs") ++ (" " ++ (fmtInt m ++ " min"))
    else if m ≠ 0 then (fmtInt m ++ " min") ++ (" " ++ (fmtRat s ++ " sec"))
    else if s ≠ 0 then fmtRat s ++ " sec"
    else ""

/-- Embedding of `duration_difference` (converters.py:111-136) as a
function of the time delta (in seconds) between the target datetime and
`datetime.now()`. -/
def duration_difference (delta_seconds : ℚ) : String :=
  duration_format (seconds_to_duration delta_seconds)

/-! ## Concrete parse functions used in witnesses and counterexamples -/

/-- A parse function that fails on every input, standing for
`dateutil.parser.parse` applied to unparseable strings. -/
def parseDtFail : String → Except String PyDatetime :=
  fun _ => Except.error "Unknown string format"

/-- A time-of-day parse function that fails on every input. -/
def parseTodFail : String → Except String TimeOfDay :=
  fun _ => Except.error "Unknown string format"

/-- A parse function standing for `dateutil.parser.parse "2h 10m 20s"`,
which yields a datetime whose time-of-day is 02:10:20. -/
def parseTwoTenTwenty : String → Except String TimeOfDay :=
  fun _ => Except.ok ⟨2, 10, 20, by omega, by omega, by omega⟩

/-! ## Claims about `seconds_to_duration` -/

/-- C1 counterexample: `seconds_to_duration 90061.5` is NOT
`(1, 1, 1, 1, 500)`; the code keeps the fractional remainder `1.5` in the
seconds field and leaves the milliseconds at `0`. -/
theorem seconds_to_duration_90061_not_claimed :
    seconds_to_duration (90061.5 : ℚ) ≠ (1, 1, 1, 1, 500) := by
  norm_num [seconds_to_duration]

/-- C1 (amended): `seconds_to_duration 90061.5 = (1, 1, 1, 1.5, 0)` —
days 1, hours 1, minutes 1, seconds field `1.5` (the fractional part is
retained, per the `remainderSeconds ≥ 1` branch), milliseconds 0. -/
theorem seconds_to_duration_90061 :
    seconds_to_duration (90061.5 : ℚ) = (1, 1, 1, 3 / 2, 0) := by
  norm_num [seconds_to_duration]

/-- C4: `seconds_to_duration 0.4 = (0, 0, 0, 0, 400)`: all of days, hours,
minutes and the seconds field are `0`, and the milliseconds field is
`ceil(0.4 * 1000) = 400`. -/
theorem seconds_to_duration_0_4 :
    seconds_to_duration (0.4 : ℚ) = (0, 0, 0, 0, 400) := by
  norm_num [seconds_to_duration]

/-! ## Claims about `local_to_utc` / `utc_to_local` -/

/-- C6: `local_to_utc` returns its input unchanged exactly when the UTC
offset is present and equal to zero; otherwise (offset absent, or present
and non-zero) the input is re-attached to the local zone and converted to
UTC. -/
theorem local_to_utc_branching (localOff : ℤ) (d : PyDatetime) :
    local_to_utc localOff d =
      if utcoffset d = some 0 then d
      else astimezone (replaceTz d (some localOff)) 0 localOff := by
  by_cases h : utcoffset d = some 0 <;> simp [local_to_utc, h]

/-- C9: converting with `utc_to_local` and then `local_to_utc` yields a
datetime denoting the same UTC instant as the original input interpreted
as UTC (`replace(tzinfo=utc)` keeps the wall clock, so that instant is the
input's wall-clock reading). -/
theorem utc_local_round_trip (localOff : ℤ) (d : PyDatetime) :
    instantOf (local_to_utc localOff (utc_to_local localOff d)) = some d.wall := by
  by_cases h : localOff = 0 <;>
    simp [utc_to_local, local_to_utc, astimezone, replaceTz, utcoffset,
      instantOf, h]

/-! ## Claims about the error channels -/

/-- C2 (amended): the dynamic type checks of `utc_to_local` and
`local_to_utc` raise `TypeError` (not `IBMInputValueError`) on a value
that is neither a datetime nor a string; an unparseable string makes them
propagate the parser's `ParserError` unchanged; only `hms_to_seconds`
wraps a parse failure in `IBMInputValueError` (with the caller's prefix).
In each case the error is returned immediately, never swallowed. -/
theorem time_conversion_error_channels
    (parseFn : String → Except String PyDatetime)
    (parseTod : String → Except String TimeOfDay)
    (localOff : ℤ) (s pfx e : String) :
    (utc_to_local_dyn parseFn localOff DtInput.other =
      Except.error (PyError.typeError "Input `utc_dt` is not string or datetime.")) ∧
    (local_to_utc_dyn parseFn localOff DtInput.other =
      Except.error (PyError.typeError "Input `local_dt` is not string or datetime.")) ∧
    (parseFn s = Except.error e →
      utc_to_local_dyn parseFn localOff (DtInput.str s) =
        Except.error (PyError.parseError e)) ∧
    (parseFn s = Except.error e →
      local_to_utc_dyn parseFn localOff (DtInput.str s) =
        Except.error (PyError.parseError e)) ∧
    (parseTod s = Except.error e →
      hms_to_seconds parseTod s pfx =
        Except.error (PyError.ibmInputValueError (pfx ++ e))) := by
  refine ⟨rfl, rfl, fun h => ?_, fun h => ?_, fun h => ?_⟩ <;>
    simp [utc_to_local_dyn, local_to_utc_dyn, hms_to_seconds, h]

/-- C2 witness: the error channels at concrete inputs. -/
theorem time_conversion_error_channels_witness :
    (utc_to_local_dyn parseDtFail 0 DtInput.other =
      Except.error (PyError.typeError "Input `utc_dt` is not string or datetime.")) ∧
    (hms_to_seconds parseTodFail "not a time" "prefix: " =
      Except.error (PyError.ibmInputValueError "prefix: Unknown string format")) :=
  ⟨(time_conversion_error_channels parseDtFail parseTodFail 0 "x" "" "e").1,
   (time_conversion_error_channels parseDtFail parseTodFail 0 "not a time"
      "prefix: " "Unknown string format").2.2.2.2 rfl⟩

/-- C2 counterexample: on an input that is neither a datetime nor a
string, `utc_to_local` fails with `TypeError`, which is not an
`IBMInputValueError`. -/
theorem utc_to_local_wrong_type_not_ibm_error :
    utc_to_local_dyn parseDtFail 0 DtInput.other =
      Except.error (PyError.typeError "Input `utc_dt` is not string or datetime.") ∧
    isIBMError (utc_to_local_dyn parseDtFail 0 DtInput.other) = false :=
  ⟨rfl, rfl⟩

/-! ## Claim about `hms_to_seconds` range -/

/-- C10: whenever `hms_to_seconds` succeeds, the returned total is between
`0` and `86399` seconds: it is `hour*3600 + minute*60 + second` of a parsed
time-of-day with `hour < 24`, `minute < 60`, `second < 60`, so a duration
of 24 hours or more is never returned. -/
theorem hms_to_seconds_in_range (parseFn : String → Except String TimeOfDay)
    (hms pfx : String) (n : ℤ)
    (h : hms_to_seconds parseFn hms pfx = Except.ok n) :
    0 ≤ n ∧ n ≤ 86399 := by
  unfold hms_to_seconds at h
  cases hp : parseFn hms with
  | error e => rw [hp] at h; exact absurd h (by simp)
  | ok t =>
    rw [hp] at h
    have hn : ((t.hour : ℤ) * 3600 + (t.minute : ℤ) * 60 + (t.second : ℤ)) = n := by
      exact Except.ok.inj h
    have h1 := t.hour_lt
    have h2 := t.minute_lt
    have h3 := t.second_lt
    omega

/-- C10 witness: `hms_to_seconds` on a parse of "2h 10m 20s" returns
`7820`, which lies in the range. -/
theorem hms_to_seconds_in_range_witness : (0 : ℤ) ≤ 7820 ∧ (7820 : ℤ) ≤ 86399 :=
  hms_to_seconds_in_range parseTwoTenTwenty "2h 10m 20s" "" 7820 rfl

/-! ## Claim about the `duration_difference` formatting cascade -/

/-- C8: the formatting cascade of `duration_difference`: if the days field
is non-zero it emits `"{days} days {hours} hrs"`; else if hours is
non-zero, `"{hours} hrs {minutes} min"`; else if minutes is non-zero,
`"{minutes} min {seconds} sec"`; else if the seconds field is non-zero,
`"{seconds} sec"`; otherwise — in particular for a milliseconds-only
remainder — the empty string. -/
theorem duration_format_cascade (d h m : ℤ) (s : ℚ) (ms : ℤ) :
    (d ≠ 0 →
      duration_format (d, h, m, s, ms) = fmtInt d ++ " days " ++ fmtInt h ++ " hrs") ∧
    (d = 0 → h ≠ 0 →
      duration_format (d, h, m, s, ms) = fmtInt h ++ " hrs " ++ fmtInt m ++ " min") ∧
    (d = 0 → h = 0 → m ≠ 0 →
      duration_format (d, h, m, s, ms) = fmtInt m ++ " min " ++ fmtRat s ++ " sec") ∧
    (d = 0 → h = 0 → m = 0 → s ≠ 0 →
      duration_format (d, h, m, s, ms) = fmtRat s ++ " sec") ∧
    (d = 0 → h = 0 → m = 0 → s = 0 →
      duration_format (d, h, m, s, ms) = "") := by
  refine ⟨fun h1 => ?_, fun h1 h2 => ?_, fun h1 h2 h3 => ?_,
    fun h1 h2 h3 h4 => ?_, fun h1 h2 h3 h4 => ?_⟩
  · simp only [duration_format, ne_eq, h1, not_false_eq_true, if_true]
    simp only [String.append_assoc]
    rw [← String.append_assoc " days" " "]
    rfl
  · simp only [duration_format, ne_eq, h1, h2, not_false_eq_true, not_true_eq_false,
      if_true, if_false, ite_false, ite_true]
    simp only [String.append_assoc]
    rw [← String.append_assoc " hrs" " "]
    rfl
  · simp only [duration_format, ne_eq, h1, h2, h3, not_false_eq_true, not_true_eq_false,
      if_true, if_false, ite_false, ite_true]
    simp only [String.append_assoc]
    rw [← String.append_assoc " min" " "]
    rfl
  · simp [duration_format, h1, h2, h3, h4]
  · simp [duration_format, h1, h2, h3, h4]

/-- C8 witness: a duration of two hours and five minutes formats as
`"2 hrs 5 min"`, and a milliseconds-only duration formats as the empty
string. -/
theorem duration_format_cascade_witness :
    duration_format (0, 2, 5, 0, 0) = "2 hrs 5 min" ∧
    duration_format (0, 0, 0, 0, 400) = "" := by
  constructor
  · rw [(duration_format_cascade 0 2 5 0 0).2.1 rfl (by norm_num)]
    rfl
  · exact (duration_format_cascade 0 0 0 0 400).2.2.2.2 rfl rfl rfl rfl

/-! ## `api/rest/utils/data_mapper.py`: `to_python_identifier`

A Python string is modelled as its list of Unicode code points.  The
character classes below are the ASCII classes the source's regexes use
(`re.ASCII` is set on the `\W` substitution, and the snake-case regex
only names the literal ranges `a-z`, `0-9`, `A-Z`); code points ≥ 128 are
therefore non-word characters, and the model scopes `str.isidentifier`
and `str.lower` to the same ASCII fragment. -/

/-- A Python string as its list of Unicode code points. -/
abbrev PyStr := List ℕ

/-- The code points of a string literal (for concrete model inputs). -/
def strCodes (s : String) : PyStr := s.data.map Char.toNat

/-- `[A-Z]` (code points 65-90). -/
def isUpperC (n : ℕ) : Bool := decide (65 ≤ n ∧ n ≤ 90)

/-- `[a-z]` (code points 97-122). -/
def isLowerC (n : ℕ) : Bool := decide (97 ≤ n ∧ n ≤ 122)

/-- `[0-9]` (code points 48-57). -/
def isDigitC (n : ℕ) : Bool := decide (48 ≤ n ∧ n ≤ 57)

/-- `\w` under `re.ASCII`: `[A-Za-z0-9_]` (`_` is code point 95). -/
def isWordC (n : ℕ) : Bool := isUpperC n || isLowerC n || isDigitC n || decide (n = 95)

/-- A character that may start an identifier: `[A-Za-z_]`. -/
def isIdentStartC (n : ℕ) : Bool := isUpperC n || isLowerC n || decide (n = 95)

/-- `str.lower()` on the ASCII fragment: `A-Z` shifts by 32. -/
def lowerC (n : ℕ) : ℕ := if isUpperC n then n + 32 else n

/-- `str.isidentifier()` on the ASCII fragment: nonempty, an identifier
start character first, word characters afterwards. -/
def isidentifier : PyStr → Bool
  | [] => false
  | c :: cs => isIdentStartC c && cs.all isWordC

/-- The substitution `re.sub(r"\W|^(?=\d)", "_", name)` with `re.ASCII`
(data_mapper.py:62-64): every non-word character is replaced by `_`, and a
leading digit additionally gets `_` inserted in front of it (the zero-width
`^(?=\d)` match). -/
def subNonWord (name : PyStr) : PyStr :=
  (match name with
   | c :: _ => if isDigitC c then [95] else []
   | [] => []) ++ name.map (fun c => if isWordC c then c else 95)

/-- One scan of the snake-case substitution
`re.sub("((?<=[a-z0-9])[A-Z]|(?!^)(?<!_)[A-Z](?=[a-z]))", r"_\1", name)`
(data_mapper.py:67-69): `prev` is the character before the current
position (`none` at position 0).  Every match is a single uppercase
letter, the lookarounds inspect the original subject string, and the
replacement `_\1` prefixes the letter with an underscore, so the scan is
pointwise over the input. -/
def snakeAux : Option ℕ → PyStr → PyStr
  | _, [] => []
  | prev, c :: rest =>
    (if isUpperC c &&
        ((match prev with
          | some p => isLowerC p || isDigitC p
          | none => false) ||
         (prev.isSome && prev != some 95 &&
          (match rest with
           | d :: _ => isLowerC d
           | [] => false)))
     then [95, c] else [c]) ++ snakeAux (some c) rest

/-- The full snake-case substitution, starting at position 0. -/
def snakeSub (l : PyStr) : PyStr := snakeAux none l

/-- Python's reserved keywords, `keyword.kwlist`. -/
def pyKeywordList : List PyStr :=
  [strCodes "False", strCodes "None", strCodes "True", strCodes "and",
   strCodes "as", strCodes "assert", strCodes "async", strCodes "await",
   strCodes "break", strCodes "class", strCodes "continue", strCodes "def",
   strCodes "del", strCodes "elif", strCodes "else", strCodes "except",
   strCodes "finally", strCodes "for", strCodes "from", strCodes "global",
   strCodes "if", strCodes "import", strCodes "in", strCodes "is",
   strCodes "lambda", strCodes "nonlocal", strCodes "not", strCodes "or",
   strCodes "pass", strCodes "raise", strCodes "return", strCodes "try",
   strCodes "while", strCodes "with", strCodes "yield"]

/-- `keyword.iskeyword`: membership in the reserved-word table. -/
def iskeyword (n : PyStr) : Bool := decide (n ∈ pyKeywordList)

/-- No keyword ends in an underscore, so appending `_` always leaves the
keyword table. -/
theorem iskeyword_snoc (n : PyStr) : iskeyword (n ++ [95]) = false := by
  have hk : ∀ k ∈ pyKeywordList, k.getLast? ≠ some (95 : ℕ) := by decide
  rw [iskeyword, decide_eq_false_iff_not]
  intro hmem
  exact hk _ hmem (by simp)

/-- The `while keyword.iskeyword(name): name += "_"` loop
(data_mapper.py:71-72). -/
def escapeKeyword (n : PyStr) : PyStr :=
  if h : iskeyword n then escapeKeyword (n ++ [95]) else n
termination_by (if iskeyword n then 1 else 0)
decreasing_by simp [iskeyword_snoc, h]

/-- Embedding of `to_python_identifier` (data_mapper.py:50-73): if the
name is not already an identifier, replace non-word characters (and guard
a leading digit); then snake-case and lowercase; then append `_` while the
result is a reserved keyword. -/
def to_python_identifier (name : PyStr) : PyStr :=
  let n1 := if isidentifier name then name else subNonWord name
  let n2 := (snakeSub n1).map lowerC
  escapeKeyword n2

/-! ## Helper lemmas about `to_python_identifier` -/

/-- Unfolding of `to_python_identifier` into its three stages. -/
theorem tpi_eval (name : PyStr) :
    to_python_identifier name =
      escapeKeyword ((snakeSub (if isidentifier name then name
        else subNonWord name)).map lowerC) := rfl

/-- The keyword loop does nothing on a non-keyword. -/
theorem escKw_neg {n : PyStr} (h : iskeyword n = false) : escapeKeyword n = n := by
  rw [escapeKeyword]
  simp [h]

/-- The keyword loop appends exactly one `_` to a keyword. -/
theorem escKw_pos {n : PyStr} (h : iskeyword n = true) :
    escapeKeyword n = n ++ [95] := by
  rw [escapeKeyword]
  simp [h, escKw_neg (iskeyword_snoc n)]

/-- The keyword loop either does nothing or appends one `_`. -/
theorem escKw_cases (n : PyStr) :
    escapeKeyword n = n ∨ escapeKeyword n = n ++ [95] := by
  by_cases h : iskeyword n
  · exact Or.inr (escKw_pos h)
  · exact Or.inl (escKw_neg (by simpa using h))

/-- The keyword loop's result is never a keyword. -/
theorem iskeyword_escKw (n : PyStr) : iskeyword (escapeKeyword n) = false := by
  by_cases h : iskeyword n
  · rw [escKw_pos h]; exact iskeyword_snoc n
  · rw [escKw_neg (by simpa using h)]; simpa using h

/-- Evaluation rule for `to_python_identifier` at concrete inputs whose
result is not a keyword. -/
theorem tpi_concrete (name out : PyStr)
    (h1 : (snakeSub (if isidentifier name then name
      else subNonWord name)).map lowerC = out)
    (h2 : iskeyword out = false) : to_python_identifier name = out := by
  rw [tpi_eval, h1]
  exact escKw_neg h2

/-- The `\W → _` map produces only word characters. -/
theorem mapSub_all_word (l : PyStr) :
    (l.map (fun c => if isWordC c then c else 95)).all isWordC = true := by
  induction l with
  | nil => rfl
  | cons c cs ih =>
    simp only [List.map_cons, List.all_cons, ih, Bool.and_true]
    by_cases h : isWordC c
    · simpa [h] using h
    · simp only [h, if_false, Bool.false_eq_true]
      decide

/-- A word character that is not a digit may start an identifier. -/
theorem isIdentStartC_of {c : ℕ} (h1 : isWordC c = true)
    (h2 : isDigitC c = false) : isIdentStartC c = true := by
  simp only [isWordC, isIdentStartC, isUpperC, isLowerC, isDigitC,
    Bool.or_eq_true, decide_eq_true_eq, decide_eq_false_iff_not] at *
  omega

/-- On a nonempty input, the `\W → _` substitution yields an identifier. -/
theorem subNonWord_ident (name : PyStr) (h : name ≠ []) :
    isidentifier (subNonWord name) = true := by
  cases name with
  | nil => exact absurd rfl h
  | cons c cs =>
    by_cases hd : isDigitC c
    · simp only [subNonWord, hd, if_true, List.singleton_append, isidentifier,
        Bool.and_eq_true]
      exact ⟨by decide, mapSub_all_word (c :: cs)⟩
    · have hd' : isDigitC c = false := by simpa using hd
      simp only [subNonWord, hd', if_false, Bool.false_eq_true, List.nil_append,
        List.map_cons, isidentifier, Bool.and_eq_true]
      refine ⟨?_, mapSub_all_word cs⟩
      by_cases hw : isWordC c
      · simpa [hw] using isIdentStartC_of (by simpa using hw) hd'
      · simp only [hw, if_false, Bool.false_eq_true]
        decide

/-- The snake-case scan emits only word characters when fed word
characters. -/
theorem snakeAux_all_word (prev : Option ℕ) (l : PyStr)
    (h : l.all isWordC = true) : (snakeAux prev l).all isWordC = true := by
  induction l generalizing prev with
  | nil => rfl
  | cons c rest ih =>
    simp only [List.all_cons, Bool.and_eq_true] at h
    simp only [snakeAux, List.all_append, Bool.and_eq_true]
    refine ⟨?_, ih (some c) h.2⟩
    split
    · simp only [List.all_cons, List.all_nil, Bool.and_true, Bool.and_eq_true]
      exact ⟨by decide, h.1⟩
    · simp [h.1]

/-- The snake-case substitution never touches position 0. -/
theorem snakeSub_cons (c : ℕ) (cs : PyStr) :
    snakeSub (c :: cs) = c :: snakeAux (some c) cs := by
  simp [snakeSub, snakeAux]

/-- Lowercasing preserves word characters. -/
theorem lowerC_word {c : ℕ} (h : isWordC c = true) : isWordC (lowerC c) = true := by
  unfold lowerC
  by_cases hu : isUpperC c
  · simp only [hu, if_true]
    simp only [isWordC, isUpperC, isLowerC, isDigitC, Bool.or_eq_true,
      decide_eq_true_eq] at *
    omega
  · simpa [hu] using h

/-- Lowercasing preserves identifier-start characters. -/
theorem lowerC_identStart {c : ℕ} (h : isIdentStartC c = true) :
    isIdentStartC (lowerC c) = true := by
  unfold lowerC
  by_cases hu : isUpperC c
  · simp only [hu, if_true]
    simp only [isIdentStartC, isUpperC, isLowerC, Bool.or_eq_true,
      decide_eq_true_eq] at *
    omega
  · simpa [hu] using h

/-- Lowercasing never produces an uppercase letter. -/
theorem lowerC_notUpper (c : ℕ) : isUpperC (lowerC c) = false := by
  unfold lowerC
  by_cases hu : isUpperC c
  · simp only [hu, if_true]
    simp only [isUpperC, decide_eq_true_eq] at hu
    simp only [isUpperC, decide_eq_false_iff_not]
    omega
  · simpa [hu] using hu

/-- The snake-case substitution maps identifiers to identifiers. -/
theorem ident_snake {l : PyStr} (h : isidentifier l = true) :
    isidentifier (snakeSub l) = true := by
  cases l with
  | nil => simp [isidentifier] at h
  | cons c cs =>
    rw [snakeSub_cons]
    simp only [isidentifier, Bool.and_eq_true] at h ⊢
    exact ⟨h.1, snakeAux_all_word (some c) cs h.2⟩

/-- Lowercasing maps identifiers to identifiers. -/
theorem ident_lower {l : PyStr} (h : isidentifier l = true) :
    isidentifier (l.map lowerC) = true := by
  cases l with
  | nil => simp [isidentifier] at h
  | cons c cs =>
    simp only [List.map_cons, isidentifier, Bool.and_eq_true] at h ⊢
    refine ⟨lowerC_identStart h.1, ?_⟩
    rw [List.all_map]
    exact List.all_eq_true.mpr fun x hx =>
      lowerC_word (List.all_eq_true.mp h.2 x hx)

/-- The keyword loop maps identifiers to identifiers. -/
theorem ident_escKw {n : PyStr} (h : isidentifier n = true) :
    isidentifier (escapeKeyword n) = true := by
  rcases escKw_cases n with he | he <;> rw [he]
  · exact h
  · cases n with
    | nil => simp [isidentifier] at h
    | cons c cs =>
      simp only [List.cons_append, isidentifier, List.all_append,
        Bool.and_eq_true] at h ⊢
      exact ⟨h.1, h.2, by decide⟩

/-- On every nonempty input, `to_python_identifier` yields a valid
identifier (all three stages preserve or establish identifier-hood). -/
theorem tpi_ident_of_ne (name : PyStr) (h : name ≠ []) :
    isidentifier (to_python_identifier name) = true := by
  rw [tpi_eval]
  apply ident_escKw
  apply ident_lower
  apply ident_snake
  by_cases hi : isidentifier name
  · simpa [hi] using hi
  · simp only [hi, if_false, Bool.false_eq_true]
    exact subNonWord_ident name h

/-- After `.lower()`, no character is uppercase. -/
theorem map_lowerC_noUpper (l : PyStr) :
    (l.map lowerC).all (fun c => !isUpperC c) = true := by
  rw [List.all_map]
  exact List.all_eq_true.mpr fun x _ => by
    simp [Function.comp, lowerC_notUpper]

/-- The keyword loop preserves the absence of uppercase characters. -/
theorem escKw_noUpper {n : PyStr} (h : n.all (fun c => !isUpperC c) = true) :
    (escapeKeyword n).all (fun c => !isUpperC c) = true := by
  rcases escKw_cases n with he | he <;> rw [he]
  · exact h
  · rw [List.all_append]
    simp only [h, Bool.true_and]
    decide

/-- On input with no uppercase character, the snake-case scan is the
identity (every match requires an uppercase letter). -/
theorem snakeAux_id_noUpper (prev : Option ℕ) (l : PyStr)
    (h : l.all (fun c => !isUpperC c) = true) : snakeAux prev l = l := by
  induction l generalizing prev with
  | nil => rfl
  | cons c rest ih =>
    simp only [List.all_cons, Bool.and_eq_true, Bool.not_eq_true'] at h
    simp only [snakeAux, h.1, Bool.false_and, if_false, Bool.false_eq_true,
      List.singleton_append, List.cons.injEq, true_and]
    exact ih (some c) (by simpa [List.all_eq_true, Bool.not_eq_true'] using h.2)

/-- On input with no uppercase character, `.lower()` is the identity. -/
theorem map_lowerC_id_noUpper (l : PyStr)
    (h : l.all (fun c => !isUpperC c) = true) : l.map lowerC = l := by
  induction l with
  | nil => rfl
  | cons c rest ih =>
    simp only [List.all_cons, Bool.and_eq_true, Bool.not_eq_true'] at h
    simp only [List.map_cons, lowerC, h.1, if_false, Bool.false_eq_true,
      List.cons.injEq, true_and]
    exact ih (by simpa [List.all_eq_true, Bool.not_eq_true'] using h.2)

/-! ## Claims about `to_python_identifier` -/

/-- C3 counterexample: on the empty string `to_python_identifier` returns
the empty string, which is not a valid Python identifier. -/
theorem to_python_identifier_empty_not_identifier :
    to_python_identifier [] = [] ∧ isidentifier (to_python_identifier []) = false := by
  have he : to_python_identifier ([] : PyStr) = [] :=
    tpi_concrete _ _ (by decide) (by decide)
  exact ⟨he, by rw [he]; decide⟩

/-- C3 (amended): `to_python_identifier` is total and never fails, and on
every nonempty string it returns a valid Python identifier; on the empty
string it returns the empty string, which is not an identifier. -/
theorem to_python_identifier_valid (name : PyStr) (h : name ≠ []) :
    isidentifier (to_python_identifier name) = true :=
  tpi_ident_of_ne name h

/-- C3 witness: the concrete nonempty string "maximumJobs". -/
theorem to_python_identifier_valid_witness :
    strCodes "maximumJobs" ≠ [] ∧
    isidentifier (to_python_identifier (strCodes "maximumJobs")) = true :=
  ⟨by decide, to_python_identifier_valid (strCodes "maximumJobs") (by decide)⟩

/-- C5: `to_python_identifier` is idempotent: its output is either empty
(only for empty input) or a valid, fully lowercased, non-keyword
identifier, and on such strings every stage of the function is the
identity. -/
theorem to_python_identifier_idempotent (name : PyStr) :
    to_python_identifier (to_python_identifier name) = to_python_identifier name := by
  by_cases h0 : name = []
  · subst h0
    have he : to_python_identifier ([] : PyStr) = [] :=
      tpi_concrete _ _ (by decide) (by decide)
    rw [he, he]
  · have hval : isidentifier (to_python_identifier name) = true :=
      tpi_ident_of_ne name h0
    have hnou : (to_python_identifier name).all (fun c => !isUpperC c) = true := by
      rw [tpi_eval]
      exact escKw_noUpper (map_lowerC_noUpper _)
    have hnk : iskeyword (to_python_identifier name) = false := by
      rw [tpi_eval]
      exact iskeyword_escKw _
    calc to_python_identifier (to_python_identifier name)
        = escapeKeyword ((snakeSub (if isidentifier (to_python_identifier name)
            then to_python_identifier name
            else subNonWord (to_python_identifier name))).map lowerC) :=
          tpi_eval _
      _ = escapeKeyword ((snakeSub (to_python_identifier name)).map lowerC) := by
          rw [hval]
          simp
      _ = escapeKeyword ((to_python_identifier name).map lowerC) := by
          rw [show snakeSub (to_python_identifier name) = to_python_identifier name
            from snakeAux_id_noUpper none _ hnou]
      _ = escapeKeyword (to_python_identifier name) := by
          rw [map_lowerC_id_noUpper _ hnou]
      _ = to_python_identifier name := escKw_neg hnk

/-! ## `api/rest/utils/data_mapper.py`: `dict_to_identifier`

A Python `dict` is modelled as an insertion-ordered association list;
lookup, `pop` and item assignment follow CPython's semantics: lookup and
`pop` find the (unique) entry of the key, assignment replaces the value
in place for an existing key and appends a fresh key at the end. -/

/-- Dictionary lookup (first occurrence). -/
def dictLookup {α : Type} (d : List (PyStr × α)) (k : PyStr) : Option α :=
  (d.find? (fun p => p.1 == k)).map Prod.snd

/-- `data.pop(key)`'s removal effect. -/
def dictPop {α : Type} (d : List (PyStr × α)) (k : PyStr) : List (PyStr × α) :=
  d.eraseP (fun p => p.1 == k)

/-- `data[new_key] = value`: replace in place if the key exists, else
append at the end. -/
def dictAssign {α : Type} (d : List (PyStr × α)) (k : PyStr) (v : α) :
    List (PyStr × α) :=
  if d.any (fun p => p.1 == k) then
    d.map (fun p => if p.1 == k then (k, v) else p)
  else d ++ [(k, v)]

/-- `new_key = mapper[key] if key in mapper else to_python_identifier(key)`
(data_mapper.py:46).  `mapper = mapper or {}` is modelled by passing the
empty list for `None`. -/
def destKey (mapper : List (PyStr × PyStr)) (k : PyStr) : PyStr :=
  match dictLookup mapper k with
  | some m => m
  | none => to_python_identifier k

/-- The loop of `dict_to_identifier` over the key snapshot
(`for key in list(data.keys())`): for each key still present,
`data[new_key] = data.pop(key)`.  (A missing key would raise `KeyError`
in Python; the loop never reaches that case since only processed keys are
removed, and the model leaves the dictionary unchanged there.) -/
def dictToIdentifierGo {α : Type} (mapper : List (PyStr × PyStr)) :
    List PyStr → List (PyStr × α) → List (PyStr × α)
  | [], d => d
  | k :: ks, d =>
    match dictLookup d k with
    | some v =>
      dictToIdentifierGo mapper ks (dictAssign (dictPop d k) (destKey mapper k) v)
    | none => dictToIdentifierGo mapper ks d

/-- Embedding of `dict_to_identifier` (data_mapper.py:34-47). -/
def dict_to_identifier {α : Type} (d : List (PyStr × α))
    (mapper : List (PyStr × PyStr)) : List (PyStr × α) :=
  dictToIdentifierGo mapper (d.map Prod.fst) d

/-- One loop step when the key is (still) present. -/
theorem go_step_found {α : Type} (mapper : List (PyStr × PyStr)) (k : PyStr)
    (ks : List PyStr) (d : List (PyStr × α)) (v : α)
    (h : dictLookup d k = some v) :
    dictToIdentifierGo mapper (k :: ks) d =
      dictToIdentifierGo mapper ks (dictAssign (dictPop d k) (destKey mapper k) v) := by
  simp only [dictToIdentifierGo, h]

/-- Loop invariant for `dict_to_identifier`: while the keys of `rem` are
still to be processed and `done` holds the already-renamed entries at the
end of the dictionary, the loop renames each remaining entry in order,
provided destinations are pairwise distinct, no destination coincides with
a remaining key, and no destination coincides with an already-produced
key. -/
theorem go_spec {α : Type} (mapper : List (PyStr × PyStr)) :
    ∀ (rem done : List (PyStr × α)),
    List.Pairwise (fun a b => destKey mapper a ≠ destKey mapper b) (rem.map Prod.fst) →
    List.Pairwise (fun a b => destKey mapper a ≠ b) (rem.map Prod.fst) →
    (∀ k ∈ rem.map Prod.fst, destKey mapper k ∉ done.map Prod.fst) →
    dictToIdentifierGo mapper (rem.map Prod.fst) (rem ++ done) =
      done ++ rem.map (fun p => (destKey mapper p.1, p.2)) := by
  intro rem
  induction rem with
  | nil =>
    intro done _ _ _
    simp [dictToIdentifierGo]
  | cons p rem' ih =>
    intro done h1 h2 h3
    obtain ⟨k, v⟩ := p
    simp only [List.map_cons, List.pairwise_cons] at h1 h2
    have hlk : dictLookup ((k, v) :: (rem' ++ done)) k = some v := by
      simp only [dictLookup]
      rw [List.find?_cons_of_pos _ (by simp)]
      rfl
    simp only [List.map_cons, List.cons_append]
    rw [go_step_found mapper k _ _ v hlk]
    have hpop : dictPop ((k, v) :: (rem' ++ done)) k = rem' ++ done := by
      simp only [dictPop]
      exact List.eraseP_cons_of_pos (by simp)
    rw [hpop]
    have hany : ((rem' ++ done).any (fun p => p.1 == destKey mapper k)) = false := by
      rw [List.any_append]
      apply Bool.or_eq_false_iff.mpr
      constructor
      · rw [List.any_eq_false]
        rintro ⟨k', v'⟩ hq
        simp only [beq_iff_eq]
        intro hcontra
        exact h2.1 k' (List.mem_map_of_mem Prod.fst hq) hcontra.symm
      · rw [List.any_eq_false]
        rintro ⟨k', v'⟩ hq
        simp only [beq_iff_eq]
        intro hcontra
        exact (h3 k (by simp)) (hcontra ▸ List.mem_map_of_mem Prod.fst hq)
    have hassign : dictAssign (rem' ++ done) (destKey mapper k) v
        = rem' ++ (done ++ [(destKey mapper k, v)]) := by
      unfold dictAssign
      rw [if_neg (by simp [hany])]
      rw [List.append_assoc]
    rw [hassign]
    rw [ih (done ++ [(destKey mapper k, v)]) h1.2 h2.2 ?_]
    · simp
    · intro k' hk'
      simp only [List.map_append, List.map_cons, List.map_nil, List.mem_append,
        not_or]
      refine ⟨h3 k' (by simp [hk']), ?_⟩
      simp only [List.mem_singleton]
      intro hcontra
      exact h1.1 k' hk' hcontra.symm

/-- C7 (amended): `dict_to_identifier` renames every key through the
mapper when present and through `to_python_identifier` otherwise, keeping
each value, provided (i) no two source keys map or normalize to the same
destination key, and (ii) no key's destination coincides with another key
of the dictionary (without (ii) a renamed entry can overwrite a
still-unprocessed entry, losing its value — see the counterexample). -/
theorem dict_to_identifier_renames {α : Type} (d : List (PyStr × α))
    (mapper : List (PyStr × PyStr))
    (h1 : List.Pairwise (fun a b => destKey mapper a ≠ destKey mapper b)
      (d.map Prod.fst))
    (h2 : List.Pairwise (fun a b => destKey mapper a ≠ b) (d.map Prod.fst)) :
    dict_to_identifier d mapper = d.map (fun p => (destKey mapper p.1, p.2)) := by
  have h := go_spec mapper d [] h1 h2 (by simp)
  simpa [dict_to_identifier] using h

/-- The record of the claim's example. -/
def exData : List (PyStr × ℕ) :=
  [(strCodes "maximumJobs", 5), (strCodes "extraField", 1)]

/-- The field map of the claim's example. -/
def exMap : List (PyStr × PyStr) :=
  [(strCodes "maximumJobs", strCodes "maximum_jobs")]

/-- C7 witness: `dict_to_identifier {"maximumJobs": 5, "extraField": 1}`
with map `{"maximumJobs": "maximum_jobs"}` yields
`{"maximum_jobs": 5, "extra_field": 1}`. -/
theorem dict_to_identifier_renames_witness :
    dict_to_identifier exData exMap =
      [(strCodes "maximum_jobs", 5), (strCodes "extra_field", 1)] := by
  have ha : destKey exMap (strCodes "maximumJobs") = strCodes "maximum_jobs" := by
    decide
  have hb : destKey exMap (strCodes "extraField") = strCodes "extra_field" := by
    unfold destKey
    rw [show dictLookup exMap (strCodes "extraField") = none from by decide]
    exact tpi_concrete _ _ (by decide) (by decide)
  have h1 : List.Pairwise (fun a b => destKey exMap a ≠ destKey exMap b)
      (exData.map Prod.fst) := by
    simp only [exData, List.map_cons, List.map_nil]
    refine List.Pairwise.cons ?_ (List.pairwise_singleton _ _)
    intro b hbmem
    simp only [List.mem_cons, List.not_mem_nil, or_false] at hbmem
    subst hbmem
    rw [ha, hb]
    decide
  have h2 : List.Pairwise (fun a b => destKey exMap a ≠ b)
      (exData.map Prod.fst) := by
    simp only [exData, List.map_cons, List.map_nil]
    refine List.Pairwise.cons ?_ (List.pairwise_singleton _ _)
    intro b hbmem
    simp only [List.mem_cons, List.not_mem_nil, or_false] at hbmem
    subst hbmem
    rw [ha]
    decide
  rw [dict_to_identifier_renames exData exMap h1 h2]
  simp only [exData, List.map_cons, List.map_nil, ha, hb]

/-- The record of the collision counterexample:
`{"x": 1, "someKey": 2}`. -/
def cexData : List (PyStr × ℕ) := [(strCodes "x", 1), (strCodes "someKey", 2)]

/-- The field map of the collision counterexample: `{"x": "someKey"}`. -/
def cexMap : List (PyStr × PyStr) := [(strCodes "x", strCodes "someKey")]

/-- C7 counterexample: with record `{"x": 1, "someKey": 2}` and field map
`{"x": "someKey"}`, the two destination keys (`"someKey"` and
`"some_key"`) are distinct — satisfying the claim's precondition — yet the
result is `{"some_key": 1}`: renaming `"x"` overwrites the still-pending
entry `"someKey"`, whose value 2 is lost, instead of the claimed
`{"someKey": 1, "some_key": 2}`. -/
theorem dict_to_identifier_collision :
    destKey cexMap (strCodes "x") ≠ destKey cexMap (strCodes "someKey") ∧
    dict_to_identifier cexData cexMap = [(strCodes "some_key", 1)] ∧
    dict_to_identifier cexData cexMap ≠
      [(strCodes "someKey", 1), (strCodes "some_key", 2)] := by
  have ha : to_python_identifier (strCodes "someKey") = strCodes "some_key" :=
    tpi_concrete _ _ (by decide) (by decide)
  have hd1 : destKey cexMap (strCodes "x") = strCodes "someKey" := by decide
  have hd2 : destKey cexMap (strCodes "someKey") = strCodes "some_key" := by
    unfold destKey
    rw [show dictLookup cexMap (strCodes "someKey") = none from by decide]
    exact ha
  have hrun : dict_to_identifier cexData cexMap = [(strCodes "some_key", 1)] := by
    unfold dict_to_identifier
    rw [show cexData.map Prod.fst = [strCodes "x", strCodes "someKey"] from rfl]
    rw [go_step_found cexMap _ _ _ 1 (by decide)]
    rw [show dictAssign (dictPop cexData (strCodes "x"))
        (destKey cexMap (strCodes "x")) 1 = [(strCodes "someKey", 1)] from by
      rw [hd1]; decide]
    rw [go_step_found cexMap _ _ _ 1 (by decide)]
    rw [show dictAssign (dictPop [(strCodes "someKey", 1)] (strCodes "someKey"))
        (destKey cexMap (strCodes "someKey")) 1 = [(strCodes "some_key", 1)] from by
      rw [hd2]; decide]
    rfl
  exact ⟨by rw [hd1, hd2]; decide, hrun, by rw [hrun]; decide⟩
